import Mathlib

/-!
Verification of the voice-gateway repository's core behavior.

The development shallowly embeds three parts of the source:

* the windowed streaming wake-word feature pipeline
  (`WakewordDetector.processAudioChunk`): audio chunks are adjusted to
  1280 samples, the external mel model yields mel frames, a while-loop
  drains every full 76-frame window with stride 8 into embeddings, and a
  final step emits one detection score per call once 16 embeddings have
  accumulated, sliding that buffer by exactly 1;
* the Cobra voice-activity gate (`CobraVAD.processAudio` / `reset`):
  a hysteresis classifier over speaking / speech-start / silence-start
  state, with finalization when speaking, minimum speech duration and
  trailing silence duration are all met;
* the session orchestrator handlers from the main entry point
  (`onWakeWord`, the audio-frame handler, and `processUserInput`), with
  external calls (persona switch, turn submission, synthesis, playback)
  recorded in an action trace tagged with the session state current at
  the moment of each call.

The external neural models (mel spectrogram, embedding, classifier) and
engines (Cobra, Cheetah, the dialogue backend) are represented as oracle
function parameters; machine floats are modeled by the score domain `V`
(instantiated at `ℚ` or `ℝ`), with `Option` marking a NaN / non-number
reading where the source checks for one.
-/

namespace VoiceGateway

/-! ### Constants from the wake-word detector source -/

def SAMPLE_RATE : Nat := 16000

def CHUNK_SAMPLES : Nat := 1280

def MEL_FRAMES_PER_CHUNK : Nat := 5

def MEL_WINDOW_SIZE : Nat := 76

def MEL_STRIDE : Nat := 8

def EMBEDDING_SIZE : Nat := 96

def EMBEDDING_WINDOW_SIZE : Nat := 16

/-! ### Streaming feature pipeline (`WakewordDetector`)

`V` stands for the JS number domain of the source; a mel frame and an
embedding are vectors of such numbers.  The ONNX model invocations are
oracle parameters `mm` (mel spectrogram), `em` (embedding) and `det`
(classification, already including the logit squash); `det` returns
`none` when the squashed score is NaN or not a number, mirroring the
`typeof score === 'number' && !isNaN(score)` check of the source. -/

abbrev MelFrame (V : Type) := List V

abbrev Emb (V : Type) := List V

/-- The detector's mutable buffers (`melBuffer`, `embeddingBuffer`,
`lastScore`).  The constructor initializes them empty / zero. -/
structure WwState (V : Type) where
  melBuffer : List (MelFrame V)
  embeddingBuffer : List (Emb V)
  lastScore : V

/-- The `DetectionResult` record of the source (the `timestamp` field is
an external clock read and is not modeled). -/
structure DetectionResult (V : Type) where
  detected : Bool
  score : V

def initState {V : Type} [Zero V] : WwState V :=
  { melBuffer := [], embeddingBuffer := [], lastScore := 0 }

/-- Chunk-size adjustment of `processAudioChunk`: a fresh zero
`Float32Array(CHUNK_SAMPLES)` overwritten from offset 0 with
`audioData.slice(0, CHUNK_SAMPLES)` — i.e. truncate to 1280 samples and
zero-pad at the end up to 1280. -/
def adjustChunk {V : Type} [Zero V] (audioData : List V) : List V :=
  if audioData.length = CHUNK_SAMPLES then audioData
  else audioData.take CHUNK_SAMPLES ++
    List.replicate (CHUNK_SAMPLES - audioData.length) 0

/-- Step 2 of `processAudioChunk`: while at least `MEL_WINDOW_SIZE` mel
frames are buffered, consume the oldest `MEL_WINDOW_SIZE` of them into
one embedding and splice `MEL_STRIDE` frames off the front. -/
def drainMel {V : Type} (em : List (MelFrame V) → Emb V)
    (mel : List (MelFrame V)) (embs : List (Emb V)) :
    List (MelFrame V) × List (Emb V) :=
  if h : MEL_WINDOW_SIZE ≤ mel.length then
    drainMel em (mel.drop MEL_STRIDE)
      (embs ++ [em (mel.take MEL_WINDOW_SIZE)])
  else
    (mel, embs)
termination_by mel.length
decreasing_by
  simp only [List.length_drop]
  simp only [MEL_WINDOW_SIZE, MEL_STRIDE] at h ⊢
  omega

/-- One call to `WakewordDetector.processAudioChunk`: adjust the chunk
size, run the mel model, append the new mel frames, drain full mel
windows into embeddings, and — if at least `EMBEDDING_WINDOW_SIZE`
embeddings are buffered — classify the oldest window, slide the
embedding buffer forward by exactly 1, and report the guarded score. -/
def processAudioChunk {V : Type} [Zero V] [LE V]
    [DecidableRel (fun a b : V => a ≤ b)]
    (mm : List V → List (MelFrame V)) (em : List (MelFrame V) → Emb V)
    (det : List (Emb V) → Option V) (thr : V)
    (s : WwState V) (audioData : List V) :
    WwState V × Option (DetectionResult V) :=
  let audio := adjustChunk audioData
  let melFrames := mm audio
  let d := drainMel em (s.melBuffer ++ melFrames) s.embeddingBuffer
  if EMBEDDING_WINDOW_SIZE ≤ d.2.length then
    let window := d.2.take EMBEDDING_WINDOW_SIZE
    let safeScore := (det window).getD 0
    ({ melBuffer := d.1, embeddingBuffer := d.2.drop 1,
       lastScore := safeScore },
     some { detected := decide (thr ≤ safeScore), score := safeScore })
  else
    ({ melBuffer := d.1, embeddingBuffer := d.2, lastScore := s.lastScore },
     none)

/-- Feed a list of chunks through `processAudioChunk` one at a time,
collecting every emitted `DetectionResult` in order. -/
def runChunks {V : Type} [Zero V] [LE V]
    [DecidableRel (fun a b : V => a ≤ b)]
    (mm : List V → List (MelFrame V)) (em : List (MelFrame V) → Emb V)
    (det : List (Emb V) → Option V) (thr : V) :
    WwState V → List (List V) → WwState V × List (DetectionResult V)
  | s, [] => (s, [])
  | s, c :: cs =>
    let r := processAudioChunk mm em det thr s c
    let rest := runChunks mm em det thr r.1 cs
    (rest.1, r.2.toList ++ rest.2)

/-- Closed form for the number of embeddings produced after `N` chunks
of `MEL_FRAMES_PER_CHUNK` mel frames each (the spec's
`floor((N*F - WINDOW_MEL)/STRIDE_MEL) + 1` once reachable, else 0). -/
def embTotal (N : Nat) : Nat :=
  if MEL_WINDOW_SIZE ≤ MEL_FRAMES_PER_CHUNK * N then
    (MEL_FRAMES_PER_CHUNK * N - MEL_WINDOW_SIZE) / MEL_STRIDE + 1
  else 0

/-! ### The logit squash of `detectWakeword` (part_006)

`rawOut` is the scalar read out of the classifier output tensor:
`some x` for a real reading (0 when the tensor is missing — the
zero-fill fail-soft path), `none` for a NaN reading.  The source
computes `sigmoid = 1 / (1 + Math.exp(-rawScore))` and returns 0
whenever that is NaN. -/

noncomputable def sigmoid (x : ℝ) : ℝ := 1 / (1 + Real.exp (-x))

noncomputable def detectWakewordScore (rawOut : Option ℝ) : ℝ :=
  match rawOut with
  | some x => sigmoid x
  | none => 0

/-! ### Voice-activity gate (`CobraVAD`, part_007)

Voice probabilities are modeled in `ℚ`, clock readings (`Date.now()`,
milliseconds) in `ℤ`.  The model describes a started gate (after
`start()`, which constructs the engine and calls `reset()`); the
`!this.cobra` early return of an unstarted gate only produces the
all-false result without touching state.  The probability returned by
`this.cobra.process(frame)` is an input of each call. -/

structure VADConfig where
  voiceThreshold : ℚ
  silenceThreshold : ℚ
  silenceDurationMs : ℤ
  minSpeechDurationMs : ℤ
deriving DecidableEq

/-- `DEFAULT_CONFIG` of the source (also the explicit values passed by
the orchestrator). -/
def defaultVADConfig : VADConfig :=
  { voiceThreshold := 7/10, silenceThreshold := 3/10,
    silenceDurationMs := 400, minSpeechDurationMs := 200 }

structure VADState where
  speaking : Bool
  speechStartTime : ℤ
  silenceStartTime : ℤ
  lastVoiceProbability : ℚ
deriving DecidableEq

/-- `CobraVAD.reset()`: clear all hysteresis fields. -/
def vadResetState : VADState :=
  { speaking := false, speechStartTime := 0, silenceStartTime := 0,
    lastVoiceProbability := 0 }

structure VADResult where
  voiceProbability : ℚ
  isSpeaking : Bool
  shouldFinalize : Bool
deriving DecidableEq

/-- One call to `CobraVAD.processAudio`, given the clock reading `now`
and the engine's voice probability `prob` for this frame. -/
def vadProcess (cfg : VADConfig) (s : VADState) (now : ℤ) (prob : ℚ) :
    VADState × VADResult :=
  let isVoice : Bool := decide (cfg.voiceThreshold ≤ prob)
  let isSilence : Bool := decide (prob < cfg.silenceThreshold)
  let s1 : VADState := { s with lastVoiceProbability := prob }
  let s2 : VADState :=
    if isVoice && !s1.speaking then
      { s1 with speaking := true, speechStartTime := now,
                silenceStartTime := 0 }
    else s1
  let s3 : VADState :=
    if s2.speaking && isSilence then
      (if s2.silenceStartTime = 0 then { s2 with silenceStartTime := now }
       else s2)
    else if s2.speaking && isVoice then { s2 with silenceStartTime := 0 }
    else s2
  let speechDuration : ℤ := if s3.speaking then now - s3.speechStartTime else 0
  let silenceDuration : ℤ :=
    if 0 < s3.silenceStartTime then now - s3.silenceStartTime else 0
  let shouldFinalize : Bool :=
    s3.speaking && decide (cfg.minSpeechDurationMs ≤ speechDuration)
      && decide (cfg.silenceDurationMs ≤ silenceDuration)
  (s3, { voiceProbability := prob, isSpeaking := s3.speaking,
         shouldFinalize := shouldFinalize })

/-- A sequence of `processAudio` calls, each with its clock reading and
engine probability, collecting the returned results in order. -/
def vadRun (cfg : VADConfig) :
    VADState → List (ℤ × ℚ) → VADState × List VADResult
  | s, [] => (s, [])
  | s, q :: rest =>
    let r := vadProcess cfg s q.1 q.2
    let rr := vadRun cfg r.1 rest
    (rr.1, r.2 :: rr.2)

/-! ### Session orchestrator (src/index.ts, Cobra-VAD variant)

The session state enum, the wake handler, the audio-frame handler and
`processUserInput`.  Awaited external calls are recorded in a trace,
each entry tagged with the value the mutable `state` variable holds at
the moment the call is issued.  The outcomes of the external calls
(current character, switch success, the lazy chunk sequence of
`sendMessage` and whether it ends in an error/timeout, synthesis
success) are oracle inputs. -/

inductive OState where
  | LISTENING_FOR_WAKE_WORD
  | LISTENING_FOR_SPEECH
  | PROCESSING
  | SPEAKING
deriving DecidableEq

/-- Outcome of one `stClient.sendMessage` iteration: the text increments
yielded before the iterator terminates, and whether it terminates by
throwing (connection failure, timeout, or an explicit error signal from
the backend) instead of a clean end marker. -/
structure SendOutcome where
  chunks : List String
  failed : Bool
deriving DecidableEq

structure TurnEnv where
  currentCharacter : Option String
  switchOk : Bool
  send : SendOutcome
  synthOk : Bool
deriving DecidableEq

inductive TurnAction where
  | switchCharacter (name : String)
  | setLastCharacter (name : String)
  | submitTurn (text : String)
  | consumeChunk (text : String)
  | synthesize (text : String)
  | playAudio
deriving DecidableEq

/-- The session fields owned by the orchestrator: `state`,
`targetCharacter`, `transcriptBuffer`, and the gate's hysteresis state
(mutated via `vad.processAudio` / `vad.reset`). -/
structure Orch where
  state : OState
  targetCharacter : Option String
  transcriptBuffer : String
  vad : VADState
deriving DecidableEq

/-- The `finally` block of `processUserInput`: unconditionally return to
listening for the wake word and clear the active character. -/
def endTurn (o : Orch) : Orch :=
  { o with state := OState.LISTENING_FOR_WAKE_WORD, targetCharacter := none }

/-- The tail of `processUserInput` after the character switch: set
`state = SPEAKING`, then iterate `stClient.sendMessage(text)`
(submission and chunk consumption therefore run with `state` already
`SPEAKING`), then synthesize and play the joined response if it is
non-empty; every failure is caught and falls through to the `finally`
block. -/
def sendAndSpeak (env : TurnEnv) (o : Orch) (text : String)
    (preTrace : List (OState × TurnAction)) :
    Orch × List (OState × TurnAction) :=
  let sendTrace := (OState.SPEAKING, TurnAction.submitTurn text) ::
    env.send.chunks.map (fun c => (OState.SPEAKING, TurnAction.consumeChunk c))
  if env.send.failed then (endTurn o, preTrace ++ sendTrace)
  else
    let fullResponse := String.join env.send.chunks
    if fullResponse = "" then (endTurn o, preTrace ++ sendTrace)
    else if env.synthOk then
      (endTurn o, preTrace ++
        (sendTrace ++ [(OState.SPEAKING, TurnAction.synthesize fullResponse),
          (OState.SPEAKING, TurnAction.playAudio)]))
    else
      (endTurn o, preTrace ++
        (sendTrace ++ [(OState.SPEAKING, TurnAction.synthesize fullResponse)]))

/-- `processUserInput(text)`: bail out if no target character is set;
otherwise set `state = PROCESSING`, switch the character if it differs
from the client's current one (persisting it on success; a switch
failure is caught and ends the turn), then hand over to the
send/synthesize/play tail. -/
def processUserInput (env : TurnEnv) (o : Orch) (text : String) :
    Orch × List (OState × TurnAction) :=
  match o.targetCharacter with
  | none => (o, [])
  | some tc =>
    if env.currentCharacter = some tc then
      sendAndSpeak env o text []
    else if env.switchOk then
      sendAndSpeak env o text
        [(OState.PROCESSING, TurnAction.switchCharacter tc),
         (OState.PROCESSING, TurnAction.setLastCharacter tc)]
    else
      (endTurn o, [(OState.PROCESSING, TurnAction.switchCharacter tc)])

/-- The session state in which each external call of a dialogue turn is
issued by the source: the character switch and its persistence run with
`state = PROCESSING`; submission, chunk consumption, synthesis and
playback run with `state = SPEAKING`. -/
def turnActionPhase : TurnAction → OState
  | TurnAction.switchCharacter _ => OState.PROCESSING
  | TurnAction.setLastCharacter _ => OState.PROCESSING
  | _ => OState.SPEAKING

/-- `wakeWord.onWakeWord` handler: ignored unless listening for the wake
word; otherwise record the target character, move to speech capture,
clear the transcript accumulator and reset the gate. -/
def onWakeWord (name : String) (o : Orch) : Orch :=
  if o.state = OState.LISTENING_FOR_WAKE_WORD then
    { state := OState.LISTENING_FOR_SPEECH, targetCharacter := some name,
      transcriptBuffer := "", vad := vadResetState }
  else o

/-- JS `String.prototype.trim` (used by the handler as
`transcriptBuffer.trim()`), modeled transparently over the character
list: strip whitespace from both ends.  (The built-in `String.trim` is
irreducible in proofs, so the embedding defines the same function
directly.) -/
def strTrim (s : String) : String :=
  String.mk
    (((s.data.dropWhile Char.isWhitespace).reverse.dropWhile
        Char.isWhitespace).reverse)

/-- External per-frame inputs of the audio handler: the clock reading
and engine probability consumed by `vad.processAudio`, the text
`stt.flush()` would return, and the dialogue-turn oracle. -/
structure FrameEnv where
  now : ℤ
  prob : ℚ
  flushText : String
  turnEnv : TurnEnv
deriving DecidableEq

inductive FrameAction where
  | wakeProcess
  | sttProcess
  | vadCall
  | sttFlush
  | turnAct (st : OState) (a : TurnAction)
deriving DecidableEq

/-- `audioInput.onAudio` handler: while listening for the wake word the
frame goes to the wake-word engine only; while capturing speech it goes
to the recognizer and the gate, and a finalize with a non-blank
accumulator flushes the recognizer and starts the dialogue turn; in the
remaining states (`PROCESSING`, `SPEAKING`) the frame is dropped with no
effect. -/
def onAudio (cfg : VADConfig) (env : FrameEnv) (o : Orch) :
    Orch × List FrameAction :=
  if o.state = OState.LISTENING_FOR_WAKE_WORD then
    (o, [FrameAction.wakeProcess])
  else if o.state = OState.LISTENING_FOR_SPEECH then
    let v := vadProcess cfg o.vad env.now env.prob
    let o1 : Orch := { o with vad := v.1 }
    if v.2.shouldFinalize && !(strTrim o1.transcriptBuffer = "") then
      let tb1 := if env.flushText = "" then o1.transcriptBuffer
        else o1.transcriptBuffer ++ env.flushText
      if strTrim tb1 = "" then
        ({ o1 with transcriptBuffer := tb1 },
         [FrameAction.sttProcess, FrameAction.vadCall, FrameAction.sttFlush])
      else
        let r := processUserInput env.turnEnv
          { o1 with transcriptBuffer := tb1 } (strTrim tb1)
        ({ r.1 with transcriptBuffer := "" },
         [FrameAction.sttProcess, FrameAction.vadCall, FrameAction.sttFlush]
           ++ r.2.map (fun p => FrameAction.turnAct p.1 p.2))
    else
      (o1, [FrameAction.sttProcess, FrameAction.vadCall])
  else
    (o, [])

/-! ### Concrete sample instances used by witnesses and counterexamples -/

/-- A gate state in mid-utterance: speaking since time 0, silent since
time 100. -/
def vadSpeakingSilent : VADState :=
  { speaking := true, speechStartTime := 0, silenceStartTime := 100,
    lastVoiceProbability := 0 }

def sampleTurnEnvIdle : TurnEnv :=
  { currentCharacter := none, switchOk := true,
    send := { chunks := [], failed := false }, synthOk := true }

/-- A frame carrying a silent probability at time 1000 ms. -/
def sampleFrameEnvSilent : FrameEnv :=
  { now := 1000, prob := 0, flushText := "", turnEnv := sampleTurnEnvIdle }

/-- A capturing session whose transcript accumulator is still empty. -/
def orchCapturingEmpty : Orch :=
  { state := OState.LISTENING_FOR_SPEECH, targetCharacter := some ("Luna"),
    transcriptBuffer := "", vad := vadSpeakingSilent }

/-- A capturing session holding the text of a finished utterance. -/
def orchCapturingHello : Orch :=
  { state := OState.LISTENING_FOR_SPEECH, targetCharacter := some ("Luna"),
    transcriptBuffer := "hello", vad := vadResetState }

/-- A turn oracle where no switch is needed and the backend streams one
increment successfully. -/
def sampleTurnEnvOk : TurnEnv :=
  { currentCharacter := some ("Luna"), switchOk := true,
    send := { chunks := ["Hi"], failed := false }, synthOk := true }

/-- A turn oracle where the backend times out / errors during the turn,
after yielding one increment. -/
def sampleTurnEnvFail : TurnEnv :=
  { currentCharacter := some ("Luna"), switchOk := true,
    send := { chunks := ["Hi"], failed := true }, synthOk := true }

/-- A session busy processing a turn. -/
def orchProcessing : Orch :=
  { state := OState.PROCESSING, targetCharacter := some ("Luna"),
    transcriptBuffer := "", vad := vadResetState }

/-- Recognizes the turn-submission call in a trace entry. -/
def isSubmitAction (p : OState × TurnAction) : Bool :=
  match p.2 with
  | TurnAction.submitTurn _ => true
  | _ => false

/-! ### Pipeline lemmas -/

theorem drainMel_of_lt {V : Type} (em : List (MelFrame V) → Emb V)
    (mel : List (MelFrame V)) (embs : List (Emb V))
    (h : mel.length < MEL_WINDOW_SIZE) :
    drainMel em mel embs = (mel, embs) := by
  rw [drainMel, dif_neg (by omega)]

theorem drainMel_one {V : Type} (em : List (MelFrame V) → Emb V)
    (mel : List (MelFrame V)) (embs : List (Emb V))
    (h1 : MEL_WINDOW_SIZE ≤ mel.length)
    (h2 : mel.length < MEL_WINDOW_SIZE + MEL_STRIDE) :
    drainMel em mel embs =
      (mel.drop MEL_STRIDE, embs ++ [em (mel.take MEL_WINDOW_SIZE)]) := by
  rw [drainMel, dif_pos h1, drainMel_of_lt]
  simp only [List.length_drop]
  simp only [MEL_WINDOW_SIZE, MEL_STRIDE] at h1 h2 ⊢
  omega

/-- The closed form `embTotal` with the constants unfolded. -/
theorem embTotal_eq (N : Nat) :
    embTotal N = if 76 ≤ 5 * N then (5 * N - 76) / 8 + 1 else 0 := by
  simp [embTotal, MEL_WINDOW_SIZE, MEL_FRAMES_PER_CHUNK, MEL_STRIDE]

/-- One `processAudioChunk` call preserves the count invariant: with 5
mel frames arriving per chunk, after the call the mel frame balance, the
embedding-buffer size and the cumulative score count all match the
closed forms. -/
theorem processAudioChunk_step {V : Type} [Zero V] [LE V]
    [DecidableRel (fun a b : V => a ≤ b)]
    (mm : List V → List (MelFrame V)) (em : List (MelFrame V) → Emb V)
    (det : List (Emb V) → Option V) (thr : V)
    (h5 : ∀ a, (mm a).length = MEL_FRAMES_PER_CHUNK)
    (N : Nat) (s : WwState V) (c : List V)
    (hm : s.melBuffer.length + 8 * embTotal N = 5 * N)
    (he : s.embeddingBuffer.length = min (embTotal N) 15) :
    (processAudioChunk mm em det thr s c).1.melBuffer.length
        + 8 * embTotal (N + 1) = 5 * (N + 1)
    ∧ (processAudioChunk mm em det thr s c).1.embeddingBuffer.length
        = min (embTotal (N + 1)) 15
    ∧ (processAudioChunk mm em det thr s c).2.toList.length
        + (embTotal N - min (embTotal N) 15)
        = embTotal (N + 1) - min (embTotal (N + 1)) 15 := by
  have hlen5 : (mm (adjustChunk c)).length = 5 := by
    have h := h5 (adjustChunk c)
    simpa [MEL_FRAMES_PER_CHUNK] using h
  have hlen1 : (s.melBuffer ++ mm (adjustChunk c)).length
      = s.melBuffer.length + 5 := by
    simp [List.length_append, hlen5]
  have hb5 : s.melBuffer.length < 76 := by
    rw [embTotal_eq] at hm
    split_ifs at hm <;> omega
  simp only [processAudioChunk]
  by_cases hc : MEL_WINDOW_SIZE ≤ (s.melBuffer ++ mm (adjustChunk c)).length
  · rw [drainMel_one em _ _ hc
      (by simp only [MEL_WINDOW_SIZE, MEL_STRIDE]; omega)]
    have hc76 : 76 ≤ s.melBuffer.length + 5 := by
      simpa [MEL_WINDOW_SIZE, hlen1] using hc
    refine ⟨?_, ?_, ?_⟩ <;>
    · simp only [EMBEDDING_WINDOW_SIZE, MEL_STRIDE]
      split_ifs with hw <;>
      · simp only [List.length_drop, List.length_append, List.length_cons,
          List.length_nil, Option.toList_some, Option.toList_none, hlen1, he,
          embTotal_eq] at *
        split_ifs at * <;> omega
  · rw [drainMel_of_lt em _ _ (by omega)]
    have hc76 : ¬ 76 ≤ s.melBuffer.length + 5 := by
      simpa [MEL_WINDOW_SIZE, hlen1] using hc
    refine ⟨?_, ?_, ?_⟩ <;>
    · simp only [EMBEDDING_WINDOW_SIZE]
      split_ifs with hw <;>
      · simp only [List.length_drop, List.length_append, List.length_cons,
          List.length_nil, Option.toList_some, Option.toList_none, hlen1, he,
          embTotal_eq] at *
        split_ifs at * <;> omega

/-- The count invariant, propagated along any chunk list. -/
theorem runChunks_inv {V : Type} [Zero V] [LE V]
    [DecidableRel (fun a b : V => a ≤ b)]
    (mm : List V → List (MelFrame V)) (em : List (MelFrame V) → Emb V)
    (det : List (Emb V) → Option V) (thr : V)
    (h5 : ∀ a, (mm a).length = MEL_FRAMES_PER_CHUNK)
    (cs : List (List V)) :
    ∀ (N : Nat) (s : WwState V),
      s.melBuffer.length + 8 * embTotal N = 5 * N →
      s.embeddingBuffer.length = min (embTotal N) 15 →
      (runChunks mm em det thr s cs).1.melBuffer.length
          + 8 * embTotal (N + cs.length) = 5 * (N + cs.length)
      ∧ (runChunks mm em det thr s cs).1.embeddingBuffer.length
          = min (embTotal (N + cs.length)) 15
      ∧ (runChunks mm em det thr s cs).2.length
          + (embTotal N - min (embTotal N) 15)
          = embTotal (N + cs.length) - min (embTotal (N + cs.length)) 15 := by
  induction cs with
  | nil =>
    intro N s hm he
    refine ⟨?_, ?_, ?_⟩
    · simpa [runChunks] using hm
    · simpa [runChunks] using he
    · simp [runChunks]
  | cons c cs ih =>
    intro N s hm he
    obtain ⟨g1, g2, g3⟩ := processAudioChunk_step mm em det thr h5 N s c hm he
    obtain ⟨r1, r2, r3⟩ :=
      ih (N + 1) (processAudioChunk mm em det thr s c).1 g1 g2
    have harith : N + 1 + cs.length = N + (cs.length + 1) := by omega
    rw [harith] at r1 r2 r3
    simp only [runChunks, List.length_cons, List.length_append]
    exact ⟨r1, r2, by omega⟩

/-- C1: for every chunk stream in which each chunk yields 5 mel frames,
the total number of embeddings produced after `N` chunks (those still
buffered plus one per emitted score, since each score slides the buffer
by exactly 1) equals `floor((N*5 - 76)/8) + 1` when `N*5 ≥ 76` and 0
otherwise; and the number of emitted detection scores equals the number
of embeddings produced beyond the first `15`, i.e. exactly one score per
embedding produced once the classification buffer has first reached 16,
the buffer holding `min(total, 15)` embeddings afterwards. -/
theorem c1_pipeline_counts {V : Type} [Zero V] [LE V]
    [DecidableRel (fun a b : V => a ≤ b)]
    (mm : List V → List (MelFrame V)) (em : List (MelFrame V) → Emb V)
    (det : List (Emb V) → Option V) (thr : V)
    (h5 : ∀ a, (mm a).length = MEL_FRAMES_PER_CHUNK)
    (cs : List (List V)) :
    (runChunks mm em det thr initState cs).2.length
        + (runChunks mm em det thr initState cs).1.embeddingBuffer.length
      = embTotal cs.length
    ∧ (runChunks mm em det thr initState cs).2.length
      = embTotal cs.length
          - min (embTotal cs.length) (EMBEDDING_WINDOW_SIZE - 1)
    ∧ (runChunks mm em det thr initState cs).1.embeddingBuffer.length
      = min (embTotal cs.length) (EMBEDDING_WINDOW_SIZE - 1)
    ∧ embTotal cs.length =
        (if MEL_WINDOW_SIZE ≤ MEL_FRAMES_PER_CHUNK * cs.length then
          (MEL_FRAMES_PER_CHUNK * cs.length - MEL_WINDOW_SIZE) / MEL_STRIDE + 1
        else 0) := by
  obtain ⟨i1, i2, i3⟩ := runChunks_inv mm em det thr h5 cs 0 initState
    (by simp [initState, embTotal_eq]) (by simp [initState, embTotal_eq])
  rw [Nat.zero_add] at i1 i2 i3
  have h0 : embTotal 0 = 0 := by simp [embTotal_eq]
  rw [h0] at i3
  have h15 : EMBEDDING_WINDOW_SIZE - 1 = 15 := by
    simp [EMBEDDING_WINDOW_SIZE]
  rw [h15]
  refine ⟨by omega, by omega, i2, rfl⟩

/-- Witness for C1: the frames-per-chunk hypothesis holds for a concrete
mel oracle producing 5 empty frames per chunk, and the count identity is
obtained for a stream of 40 silent chunks. -/
theorem c1_pipeline_counts_witness :
    (∀ a : List ℚ,
      ((fun _ : List ℚ => List.replicate 5 ([] : MelFrame ℚ)) a).length
        = MEL_FRAMES_PER_CHUNK)
    ∧ (runChunks (fun _ : List ℚ => List.replicate 5 ([] : MelFrame ℚ))
          (fun _ => ([] : Emb ℚ)) (fun _ => (none : Option ℚ)) 0 initState
          (List.replicate 40 ([] : List ℚ))).2.length
        + (runChunks (fun _ : List ℚ => List.replicate 5 ([] : MelFrame ℚ))
            (fun _ => ([] : Emb ℚ)) (fun _ => (none : Option ℚ)) 0 initState
            (List.replicate 40 ([] : List ℚ))).1.embeddingBuffer.length
      = embTotal (List.replicate 40 ([] : List ℚ)).length := by
  have h5 : ∀ a : List ℚ,
      ((fun _ : List ℚ => List.replicate 5 ([] : MelFrame ℚ)) a).length
        = MEL_FRAMES_PER_CHUNK := by
    intro a
    simp [MEL_FRAMES_PER_CHUNK]
  exact ⟨h5, (c1_pipeline_counts _ _ _ _ h5 _).1⟩

/-- C7: with 5 mel frames arriving per chunk, after every
`processAudioChunk` call (equivalently, after running any chunk list
from the initial state) the mel accumulation buffer holds fewer than 76
frames and the embedding accumulation buffer holds fewer than 16
embeddings: neither stage is left with a full processable window. -/
theorem c7_buffers_drained {V : Type} [Zero V] [LE V]
    [DecidableRel (fun a b : V => a ≤ b)]
    (mm : List V → List (MelFrame V)) (em : List (MelFrame V) → Emb V)
    (det : List (Emb V) → Option V) (thr : V)
    (h5 : ∀ a, (mm a).length = MEL_FRAMES_PER_CHUNK)
    (cs : List (List V)) :
    (runChunks mm em det thr initState cs).1.melBuffer.length
      < MEL_WINDOW_SIZE
    ∧ (runChunks mm em det thr initState cs).1.embeddingBuffer.length
      < EMBEDDING_WINDOW_SIZE := by
  obtain ⟨i1, i2, _⟩ := runChunks_inv mm em det thr h5 cs 0 initState
    (by simp [initState, embTotal_eq]) (by simp [initState, embTotal_eq])
  rw [Nat.zero_add] at i1 i2
  constructor
  · rw [embTotal_eq] at i1
    simp only [MEL_WINDOW_SIZE]
    split_ifs at i1 <;> omega
  · simp only [EMBEDDING_WINDOW_SIZE]
    omega

/-- Witness for C7: the hypothesis is discharged for the concrete
5-frames-per-chunk oracle and a stream of 20 silent chunks. -/
theorem c7_buffers_drained_witness :
    (∀ a : List ℚ,
      ((fun _ : List ℚ => List.replicate 5 ([] : MelFrame ℚ)) a).length
        = MEL_FRAMES_PER_CHUNK)
    ∧ (runChunks (fun _ : List ℚ => List.replicate 5 ([] : MelFrame ℚ))
          (fun _ => ([] : Emb ℚ)) (fun _ => (none : Option ℚ)) 0 initState
          (List.replicate 20 ([] : List ℚ))).1.melBuffer.length
      < MEL_WINDOW_SIZE := by
  have h5 : ∀ a : List ℚ,
      ((fun _ : List ℚ => List.replicate 5 ([] : MelFrame ℚ)) a).length
        = MEL_FRAMES_PER_CHUNK := by
    intro a
    simp [MEL_FRAMES_PER_CHUNK]
  exact ⟨h5, (c7_buffers_drained _ _ _ _ h5 _).1⟩

/-- C10: chunk-size adjustment never fails — every adjusted chunk has
exactly 1280 samples, a short chunk is zero-padded at the end, a long
chunk is truncated, and `processAudioChunk` behaves on any input exactly
as on its adjusted 1280-sample form. -/
theorem c10_chunk_adjustment {V : Type} [Zero V] [LE V]
    [DecidableRel (fun a b : V => a ≤ b)] :
    (∀ a : List V, (adjustChunk a).length = CHUNK_SAMPLES)
    ∧ (∀ a : List V, a.length ≤ CHUNK_SAMPLES →
        adjustChunk a = a ++ List.replicate (CHUNK_SAMPLES - a.length) 0)
    ∧ (∀ a : List V, CHUNK_SAMPLES ≤ a.length →
        adjustChunk a = a.take CHUNK_SAMPLES)
    ∧ (∀ (mm : List V → List (MelFrame V)) (em : List (MelFrame V) → Emb V)
        (det : List (Emb V) → Option V) (thr : V) (s : WwState V)
        (a : List V),
        processAudioChunk mm em det thr s a
          = processAudioChunk mm em det thr s (adjustChunk a)) := by
  have hlen : ∀ a : List V, (adjustChunk a).length = CHUNK_SAMPLES := by
    intro a
    unfold adjustChunk
    split_ifs with h
    · exact h
    · simp only [List.length_append, List.length_take, List.length_replicate]
      omega
  refine ⟨hlen, ?_, ?_, ?_⟩
  · intro a h
    unfold adjustChunk
    split_ifs with h1
    · simp [h1]
    · rw [List.take_of_length_le h]
  · intro a h
    unfold adjustChunk
    split_ifs with h1
    · rw [← h1, List.take_length]
    · have h0 : CHUNK_SAMPLES - a.length = 0 := by omega
      simp [h0]
  · intro mm em det thr s a
    have hid : adjustChunk (adjustChunk a) = adjustChunk a := by
      rw [adjustChunk]
      rw [if_pos (hlen a)]
    simp only [processAudioChunk, hid]

/-- Witness for C10: the padding branch at a 3-sample chunk and the
truncation branch at a 2000-sample chunk. -/
theorem c10_chunk_adjustment_witness :
    ([(1 : ℚ), 2, 3].length ≤ CHUNK_SAMPLES
      ∧ adjustChunk [(1 : ℚ), 2, 3]
          = [(1 : ℚ), 2, 3]
            ++ List.replicate (CHUNK_SAMPLES - [(1 : ℚ), 2, 3].length) 0)
    ∧ (CHUNK_SAMPLES ≤ (List.replicate 2000 (0 : ℚ)).length
      ∧ adjustChunk (List.replicate 2000 (0 : ℚ))
          = (List.replicate 2000 (0 : ℚ)).take CHUNK_SAMPLES) := by
  constructor
  · have h : [(1 : ℚ), 2, 3].length ≤ CHUNK_SAMPLES := by
      simp [CHUNK_SAMPLES]
    exact ⟨h, (c10_chunk_adjustment (V := ℚ)).2.1 _ h⟩
  · have h : CHUNK_SAMPLES ≤ (List.replicate 2000 (0 : ℚ)).length := by
      simp only [CHUNK_SAMPLES, List.length_replicate]
      omega
    exact ⟨h, (c10_chunk_adjustment (V := ℚ)).2.2.1 _ h⟩

/-- The logistic squash lands in the unit interval. -/
theorem sigmoid_mem_unit (x : ℝ) : 0 ≤ sigmoid x ∧ sigmoid x ≤ 1 := by
  unfold sigmoid
  have hx := Real.exp_pos (-x)
  constructor
  · apply div_nonneg <;> linarith
  · rw [div_le_one (by linarith)]
    linarith

/-- C8: every score of the detector lies in `[0, 1]` — `detectWakeword`
squashes the raw classifier logit through the logistic function and maps
a NaN reading to the safe default 0, and every `DetectionResult` emitted
by `processAudioChunk` with that scorer carries such a score (with the
NaN guard of the processing loop additionally replacing any non-number
by 0 before it reaches the caller or the callbacks). -/
theorem c8_scores_unit :
    (∀ rawOut : Option ℝ,
        0 ≤ detectWakewordScore rawOut ∧ detectWakewordScore rawOut ≤ 1)
    ∧ ∀ (mm : List ℝ → List (MelFrame ℝ)) (em : List (MelFrame ℝ) → Emb ℝ)
        (co : List (Emb ℝ) → Option ℝ) (thr : ℝ) (s : WwState ℝ)
        (c : List ℝ) (r : DetectionResult ℝ),
        (processAudioChunk mm em
            (fun w => some (detectWakewordScore (co w))) thr s c).2 = some r →
        0 ≤ r.score ∧ r.score ≤ 1 := by
  have hbound : ∀ rawOut : Option ℝ,
      0 ≤ detectWakewordScore rawOut ∧ detectWakewordScore rawOut ≤ 1 := by
    intro rawOut
    cases rawOut with
    | some x => simpa [detectWakewordScore] using sigmoid_mem_unit x
    | none => simp [detectWakewordScore]
  refine ⟨hbound, ?_⟩
  intro mm em co thr s c r h
  simp only [processAudioChunk] at h
  split_ifs at h with hcond
  · simp only [Option.some.injEq] at h
    subst h
    simpa using hbound (co _)

/-- Witness for C8: a concrete call with 16 embeddings already buffered
and a NaN classifier reading emits a result, whose score is in the unit
interval by the theorem. -/
theorem c8_scores_unit_witness :
    ∃ r : DetectionResult ℝ,
      (processAudioChunk (fun _ : List ℝ => ([] : List (MelFrame ℝ)))
          (fun _ => ([] : Emb ℝ))
          (fun w => some (detectWakewordScore ((fun _ => (none : Option ℝ)) w)))
          (0 : ℝ)
          { melBuffer := [], embeddingBuffer := List.replicate 16 ([] : Emb ℝ),
            lastScore := 0 } []).2 = some r
      ∧ 0 ≤ r.score ∧ r.score ≤ 1 := by
  have he : (processAudioChunk (fun _ : List ℝ => ([] : List (MelFrame ℝ)))
      (fun _ => ([] : Emb ℝ))
      (fun w => some (detectWakewordScore ((fun _ => (none : Option ℝ)) w)))
      (0 : ℝ)
      { melBuffer := [], embeddingBuffer := List.replicate 16 ([] : Emb ℝ),
        lastScore := 0 } []).2
      = some { detected := decide ((0 : ℝ) ≤ detectWakewordScore none),
               score := detectWakewordScore none } := by
    simp only [processAudioChunk]
    rw [drainMel_of_lt _ _ _ (by simp [MEL_WINDOW_SIZE])]
    simp [EMBEDDING_WINDOW_SIZE]
  exact ⟨_, he, c8_scores_unit.2 _ _ _ _ _ _ _ he⟩

/-! ### Voice-activity gate lemmas -/

/-- The speaking flag after one gate call: it is set exactly when it was
already set or the current probability crosses the voice threshold
(`processAudio` never clears it). -/
theorem vadProcess_speaking_eq (cfg : VADConfig) (s : VADState) (now : ℤ)
    (prob : ℚ) :
    (vadProcess cfg s now prob).1.speaking
      = (s.speaking || decide (cfg.voiceThreshold ≤ prob)) := by
  simp only [vadProcess]
  split_ifs <;> simp_all

/-- The reported `isSpeaking` field equals the updated speaking flag. -/
theorem vadProcess_result_speaking (cfg : VADConfig) (s : VADState) (now : ℤ)
    (prob : ℚ) :
    (vadProcess cfg s now prob).2.isSpeaking
      = (s.speaking || decide (cfg.voiceThreshold ≤ prob)) := by
  simp only [vadProcess]
  split_ifs <;> simp_all

/-- `shouldFinalize` is a conjunction headed by the speaking flag. -/
theorem vadProcess_finalize_speaking (cfg : VADConfig) (s : VADState) (now : ℤ)
    (prob : ℚ)
    (hf : (vadProcess cfg s now prob).2.shouldFinalize = true) :
    (vadProcess cfg s now prob).2.isSpeaking = true := by
  simp only [vadProcess] at hf ⊢
  split_ifs at hf ⊢ <;> simp_all

/-- If the gate is speaking after a run, it was speaking at the start or
some processed frame crossed the voice threshold. -/
theorem vadRun_speaking_source (cfg : VADConfig) (ins : List (ℤ × ℚ)) :
    ∀ s : VADState, (vadRun cfg s ins).1.speaking = true →
      s.speaking = true ∨ ∃ q ∈ ins, cfg.voiceThreshold ≤ q.2 := by
  induction ins with
  | nil =>
    intro s h
    exact Or.inl (by simpa [vadRun] using h)
  | cons q rest ih =>
    intro s h
    simp only [vadRun] at h
    rcases ih _ h with h1 | h2
    · rw [vadProcess_speaking_eq] at h1
      have h2 : s.speaking = true ∨ cfg.voiceThreshold ≤ q.2 := by
        simpa using h1
      rcases h2 with hs | hv
      · exact Or.inl hs
      · exact Or.inr ⟨q, List.mem_cons_self q rest, hv⟩
    · obtain ⟨p, hp, hv⟩ := h2
      exact Or.inr ⟨p, List.mem_cons_of_mem q hp, hv⟩

/-- C2 (amended): after any sequence of `processAudio` calls from the
reset state, `shouldFinalize` can be true only if the current or some
earlier frame crossed the voice threshold (speech has begun); the
original claim's second half is false — the flag is level-triggered and
can be true on consecutive calls with no intervening `reset` (see the
counterexample). -/
theorem c2_no_finalize_before_speech (cfg : VADConfig) (ins : List (ℤ × ℚ))
    (now : ℤ) (prob : ℚ)
    (hf : (vadProcess cfg (vadRun cfg vadResetState ins).1
        now prob).2.shouldFinalize = true) :
    cfg.voiceThreshold ≤ prob ∨ ∃ q ∈ ins, cfg.voiceThreshold ≤ q.2 := by
  have hsp := vadProcess_finalize_speaking cfg _ now prob hf
  rw [vadProcess_result_speaking] at hsp
  have hsp2 : (vadRun cfg vadResetState ins).1.speaking = true
      ∨ cfg.voiceThreshold ≤ prob := by
    simpa using hsp
  rcases hsp2 with hs | hv
  · rcases vadRun_speaking_source cfg ins vadResetState hs with h1 | h2
    · simp [vadResetState] at h1
    · exact Or.inr h2
  · exact Or.inl hv

/-- Witness for C2 (amended): a concrete run — voice at 0 ms, silence at
1000 ms and 1480 ms — makes the next call at 1500 ms finalize, and the
theorem locates a voice frame in the history. -/
theorem c2_no_finalize_before_speech_witness :
    ((vadProcess defaultVADConfig
        (vadRun defaultVADConfig vadResetState
          [(0, 9/10), (1000, 1/10), (1480, 1/10)]).1
        1500 (1/10)).2.shouldFinalize = true)
    ∧ (defaultVADConfig.voiceThreshold ≤ (1/10 : ℚ)
        ∨ ∃ q ∈ [((0 : ℤ), (9/10 : ℚ)), (1000, 1/10), (1480, 1/10)],
            defaultVADConfig.voiceThreshold ≤ q.2) := by
  have hf : (vadProcess defaultVADConfig
      (vadRun defaultVADConfig vadResetState
        [(0, 9/10), (1000, 1/10), (1480, 1/10)]).1
      1500 (1/10)).2.shouldFinalize = true := by
    norm_num [vadRun, vadProcess, vadResetState, defaultVADConfig]
  exact ⟨hf, c2_no_finalize_before_speech _ _ _ _ hf⟩

/-- C2 counterexample (refuting the claim as stated): with the default
configuration, after a voice frame at 0 ms and silent frames at 1000,
1500 and 1600 ms, `shouldFinalize` is true on the third AND fourth calls
of one reset-free run — it does fire twice without an intervening
`reset`. -/
theorem c2_counterexample :
    ((vadRun defaultVADConfig vadResetState
        [(0, 9/10), (1000, 1/10), (1500, 1/10), (1600, 1/10)]).2.map
      (fun r => r.shouldFinalize)) = [false, false, true, true] := by
  norm_num [vadRun, vadProcess, vadResetState, defaultVADConfig]

/-! ### Session orchestrator theorems -/

/-- C5: a wake detection received while the session is not in
`LISTENING_FOR_WAKE_WORD` (IdleListening) returns without changing the
session at all — state, active persona, transcript accumulator and gate
state are untouched. -/
theorem c5_wake_ignored (name : String) (o : Orch)
    (h : o.state ≠ OState.LISTENING_FOR_WAKE_WORD) :
    onWakeWord name o = o := by
  unfold onWakeWord
  rw [if_neg h]

/-- Witness for C5: a capturing session ignores a wake event. -/
theorem c5_wake_ignored_witness :
    orchCapturingHello.state ≠ OState.LISTENING_FOR_WAKE_WORD
    ∧ onWakeWord ("Robin") orchCapturingHello = orchCapturingHello := by
  have h : orchCapturingHello.state ≠ OState.LISTENING_FOR_WAKE_WORD := by
    simp [orchCapturingHello]
  exact ⟨h, c5_wake_ignored _ _ h⟩

/-- C9: every audio frame delivered while the session state is
`PROCESSING` or `SPEAKING` is dropped: the handler issues no component
call (no wake-spotter, recognizer or gate forwarding, no flush, no turn
action), queues nothing, and returns the session — state, persona,
transcript, gate state — unchanged. -/
theorem c9_frames_dropped (cfg : VADConfig) (env : FrameEnv) (o : Orch)
    (h : o.state = OState.PROCESSING ∨ o.state = OState.SPEAKING) :
    onAudio cfg env o = (o, []) := by
  unfold onAudio
  rcases h with h | h <;> rw [h] <;> rfl

/-- Witness for C9: a concrete frame arriving during `PROCESSING`. -/
theorem c9_frames_dropped_witness :
    (orchProcessing.state = OState.PROCESSING
      ∨ orchProcessing.state = OState.SPEAKING)
    ∧ onAudio defaultVADConfig sampleFrameEnvSilent orchProcessing
        = (orchProcessing, []) := by
  have h : orchProcessing.state = OState.PROCESSING
      ∨ orchProcessing.state = OState.SPEAKING := Or.inl rfl
  exact ⟨h, c9_frames_dropped _ _ _ h⟩

/-- C3 (amended): when finalization fires while capturing and the
transcript accumulator is blank, no dialogue request is issued and the
recognizer is not even flushed; contrary to the original claim the
session does NOT return to `LISTENING_FOR_WAKE_WORD` (IdleListening) —
it stays in `LISTENING_FOR_SPEECH` (CapturingUtterance) with persona and
transcript unchanged, only the gate state advancing. -/
theorem c3_empty_finalize_no_request (cfg : VADConfig) (env : FrameEnv)
    (o : Orch)
    (h1 : o.state = OState.LISTENING_FOR_SPEECH)
    (h2 : strTrim o.transcriptBuffer = "")
    (hfin : (vadProcess cfg o.vad env.now env.prob).2.shouldFinalize = true) :
    (onAudio cfg env o).1.state = OState.LISTENING_FOR_SPEECH
    ∧ (onAudio cfg env o).1.targetCharacter = o.targetCharacter
    ∧ (onAudio cfg env o).1.transcriptBuffer = o.transcriptBuffer
    ∧ (onAudio cfg env o).2
        = [FrameAction.sttProcess, FrameAction.vadCall] := by
  unfold onAudio
  rw [h1]
  simp [h1, h2]

/-- Witness for C3 (amended): a concrete capturing session with an empty
accumulator and a finalizing silent frame. -/
theorem c3_empty_finalize_no_request_witness :
    (orchCapturingEmpty.state = OState.LISTENING_FOR_SPEECH
      ∧ strTrim orchCapturingEmpty.transcriptBuffer = ""
      ∧ (vadProcess defaultVADConfig orchCapturingEmpty.vad
          sampleFrameEnvSilent.now
          sampleFrameEnvSilent.prob).2.shouldFinalize = true)
    ∧ (onAudio defaultVADConfig sampleFrameEnvSilent
        orchCapturingEmpty).1.state = OState.LISTENING_FOR_SPEECH := by
  have h1 : orchCapturingEmpty.state = OState.LISTENING_FOR_SPEECH := rfl
  have h2 : strTrim orchCapturingEmpty.transcriptBuffer = "" := rfl
  have h3 : (vadProcess defaultVADConfig orchCapturingEmpty.vad
      sampleFrameEnvSilent.now
      sampleFrameEnvSilent.prob).2.shouldFinalize = true := by
    norm_num [vadProcess, defaultVADConfig, orchCapturingEmpty,
      vadSpeakingSilent, sampleFrameEnvSilent]
  exact ⟨⟨h1, h2, h3⟩, (c3_empty_finalize_no_request _ _ _ h1 h2 h3).1⟩

/-- C3 counterexample (refuting the claim as stated): at a concrete
finalize with an empty accumulator the session stays in
`LISTENING_FOR_SPEECH`; it does not return to
`LISTENING_FOR_WAKE_WORD` (IdleListening) as the claim requires. -/
theorem c3_counterexample :
    orchCapturingEmpty.transcriptBuffer = ""
    ∧ (vadProcess defaultVADConfig orchCapturingEmpty.vad
        sampleFrameEnvSilent.now
        sampleFrameEnvSilent.prob).2.shouldFinalize = true
    ∧ (onAudio defaultVADConfig sampleFrameEnvSilent
        orchCapturingEmpty).1.state ≠ OState.LISTENING_FOR_WAKE_WORD := by
  refine ⟨rfl, ?_, ?_⟩
  · norm_num [vadProcess, defaultVADConfig, orchCapturingEmpty,
      vadSpeakingSilent, sampleFrameEnvSilent]
  · norm_num [onAudio, vadProcess, defaultVADConfig, orchCapturingEmpty,
      vadSpeakingSilent, sampleFrameEnvSilent,
      (show strTrim ("") = "" from rfl)]
    simp

/-- Every element the send/synthesize/play tail appends after the switch
part of the trace is tagged `SPEAKING`, and `SPEAKING` is its phase. -/
theorem sendAndSpeak_decomp (env : TurnEnv) (o : Orch) (text : String)
    (preTrace : List (OState × TurnAction)) :
    ∃ rest, (sendAndSpeak env o text preTrace).2 = preTrace ++ rest
      ∧ ∀ p ∈ rest, p.1 = OState.SPEAKING ∧ p.1 = turnActionPhase p.2 := by
  have hsend : ∀ p ∈ (OState.SPEAKING, TurnAction.submitTurn text) ::
      env.send.chunks.map
        (fun c => (OState.SPEAKING, TurnAction.consumeChunk c)),
      p.1 = OState.SPEAKING ∧ p.1 = turnActionPhase p.2 := by
    intro p hp
    rcases List.mem_cons.mp hp with rfl | hp
    · exact ⟨rfl, rfl⟩
    · obtain ⟨c, hc, rfl⟩ := List.mem_map.mp hp
      exact ⟨rfl, rfl⟩
  simp only [sendAndSpeak]
  split_ifs
  · exact ⟨_, rfl, hsend⟩
  · exact ⟨_, rfl, hsend⟩
  · refine ⟨_, rfl, ?_⟩
    intro p hp
    rcases List.mem_append.mp hp with hp | hp
    · exact hsend p hp
    · rcases List.mem_cons.mp hp with rfl | hp
      · exact ⟨rfl, rfl⟩
      · rcases List.mem_cons.mp hp with rfl | hp
        · exact ⟨rfl, rfl⟩
        · cases hp
  · refine ⟨_, rfl, ?_⟩
    intro p hp
    rcases List.mem_append.mp hp with hp | hp
    · exact hsend p hp
    · rcases List.mem_cons.mp hp with rfl | hp
      · exact ⟨rfl, rfl⟩
      · cases hp

/-- C4 (amended): in every dialogue turn the persona switch and its
persistence are issued with the session state `PROCESSING`, but the
session enters `SPEAKING` immediately afterwards — BEFORE the turn is
submitted — so turn submission, increment consumption, synthesis and
playback all run in `SPEAKING`; the trace splits into the `PROCESSING`
part followed by the `SPEAKING` part. -/
theorem c4_amended (env : TurnEnv) (o : Orch) (text : String) :
    (∀ p ∈ (processUserInput env o text).2, p.1 = turnActionPhase p.2)
    ∧ ∃ t1 t2, (processUserInput env o text).2 = t1 ++ t2
        ∧ (∀ p ∈ t1, p.1 = OState.PROCESSING)
        ∧ (∀ p ∈ t2, p.1 = OState.SPEAKING) := by
  rcases ht : o.targetCharacter with _ | tc
  · simp only [processUserInput, ht]
    constructor
    · intro p hp
      cases hp
    · exact ⟨[], [], rfl, by simp, by simp⟩
  · simp only [processUserInput, ht]
    split_ifs with hcur hsw
    · obtain ⟨rest, hr, hre⟩ := sendAndSpeak_decomp env o text []
      rw [hr]
      constructor
      · intro p hp
        simp only [List.nil_append] at hp
        exact (hre p hp).2
      · exact ⟨[], rest, by simp, by simp, fun p hp => (hre p hp).1⟩
    · obtain ⟨rest, hr, hre⟩ := sendAndSpeak_decomp env o text
        [(OState.PROCESSING, TurnAction.switchCharacter tc),
         (OState.PROCESSING, TurnAction.setLastCharacter tc)]
      rw [hr]
      constructor
      · intro p hp
        rcases List.mem_append.mp hp with hp | hp
        · rcases List.mem_cons.mp hp with rfl | hp
          · rfl
          · rcases List.mem_cons.mp hp with rfl | hp
            · rfl
            · cases hp
        · exact (hre p hp).2
      · refine ⟨_, rest, rfl, ?_, fun p hp => (hre p hp).1⟩
        intro p hp
        rcases List.mem_cons.mp hp with rfl | hp
        · rfl
        · rcases List.mem_cons.mp hp with rfl | hp
          · rfl
          · cases hp
    · constructor
      · intro p hp
        rcases List.mem_singleton.mp hp with rfl
        rfl
      · refine ⟨[(OState.PROCESSING, TurnAction.switchCharacter tc)], [],
          by simp, ?_, by simp⟩
        intro p hp
        rcases List.mem_singleton.mp hp with rfl
        rfl

/-- Witness for C4 (amended): in a concrete successful turn the theorem
places the consumption of the increment in the `SPEAKING` phase. -/
theorem c4_amended_witness :
    ((OState.SPEAKING, TurnAction.consumeChunk ("Hi"))
        ∈ (processUserInput sampleTurnEnvOk orchCapturingHello ("hello")).2)
    ∧ (OState.SPEAKING, TurnAction.consumeChunk ("Hi")).1
        = turnActionPhase
            (OState.SPEAKING, TurnAction.consumeChunk ("Hi")).2 := by
  have hm : (OState.SPEAKING, TurnAction.consumeChunk ("Hi"))
      ∈ (processUserInput sampleTurnEnvOk orchCapturingHello ("hello")).2 := by
    decide
  exact ⟨hm, (c4_amended _ _ _).1 _ hm⟩

/-- C4 counterexample (refuting the claim as stated): in a concrete turn
the submission action is issued with the session state already
`SPEAKING`, and no submission happens in `PROCESSING` — the claim that
the state is `ProcessingTurn` throughout turn submission and increment
consumption is false. -/
theorem c4_counterexample :
    ((OState.SPEAKING, TurnAction.submitTurn ("hello"))
        ∈ (processUserInput sampleTurnEnvOk orchCapturingHello ("hello")).2)
    ∧ ((OState.PROCESSING, TurnAction.submitTurn ("hello"))
        ∉ (processUserInput sampleTurnEnvOk orchCapturingHello
            ("hello")).2) := by
  decide

/-- C6: if the persona switch fails, or the backend times out / errors
during turn submission, the turn is aborted with no retry — the session
returns to `LISTENING_FOR_WAKE_WORD` (IdleListening), the active persona
is cleared, at most one submission is ever issued, and neither the
synthesizer nor the audio sink is invoked for that turn. -/
theorem c6_failure_aborts (env : TurnEnv) (o : Orch) (text : String)
    (tc : String) (ht : o.targetCharacter = some tc)
    (hfail : (env.currentCharacter ≠ some tc ∧ env.switchOk = false)
        ∨ env.send.failed = true) :
    (processUserInput env o text).1.state = OState.LISTENING_FOR_WAKE_WORD
    ∧ (processUserInput env o text).1.targetCharacter = none
    ∧ (processUserInput env o text).2.countP isSubmitAction ≤ 1
    ∧ ∀ p ∈ (processUserInput env o text).2,
        (∀ t, p.2 ≠ TurnAction.synthesize t)
          ∧ p.2 ≠ TurnAction.playAudio := by
  have hmap0 : ∀ l : List String,
      (l.map (fun c => (OState.SPEAKING, TurnAction.consumeChunk c))).countP
        isSubmitAction = 0 := by
    intro l
    induction l with
    | nil => simp
    | cons a l ih => simp [List.countP_cons, isSubmitAction, ih]
  have hsendmem : ∀ p ∈ (OState.SPEAKING, TurnAction.submitTurn text) ::
      env.send.chunks.map
        (fun c => (OState.SPEAKING, TurnAction.consumeChunk c)),
      (∀ t, p.2 ≠ TurnAction.synthesize t)
        ∧ p.2 ≠ TurnAction.playAudio := by
    intro p hp
    rcases List.mem_cons.mp hp with rfl | hp
    · exact ⟨fun t => by simp, by simp⟩
    · obtain ⟨c, hc, rfl⟩ := List.mem_map.mp hp
      exact ⟨fun t => by simp, by simp⟩
  simp only [processUserInput, ht]
  split_ifs with hcur hsw
  · have hsendf : env.send.failed = true := by
      rcases hfail with ⟨hne, _⟩ | hs
      · exact absurd hcur hne
      · exact hs
    simp only [sendAndSpeak, hsendf, if_true]
    refine ⟨rfl, rfl, ?_, ?_⟩
    · simp only [List.nil_append, List.countP_cons, hmap0, isSubmitAction]
      norm_num
    · intro p hp
      simp only [List.nil_append] at hp
      exact hsendmem p hp
  · have hsendf : env.send.failed = true := by
      rcases hfail with ⟨_, hsw2⟩ | hs
      · simp [hsw] at hsw2
      · exact hs
    simp only [sendAndSpeak, hsendf, if_true]
    refine ⟨rfl, rfl, ?_, ?_⟩
    · simp only [List.countP_append, List.countP_cons, hmap0, isSubmitAction]
      norm_num
    · intro p hp
      rcases List.mem_append.mp hp with hp | hp
      · rcases List.mem_cons.mp hp with rfl | hp
        · exact ⟨fun t => by simp, by simp⟩
        · rcases List.mem_cons.mp hp with rfl | hp
          · exact ⟨fun t => by simp, by simp⟩
          · cases hp
      · exact hsendmem p hp
  · refine ⟨rfl, rfl, ?_, ?_⟩
    · simp [List.countP_cons, isSubmitAction]
    · intro p hp
      rcases List.mem_singleton.mp hp with rfl
      exact ⟨fun t => by simp, by simp⟩

/-- Witness for C6: the concrete turn oracle whose backend errors after
one increment aborts the turn back to `LISTENING_FOR_WAKE_WORD`. -/
theorem c6_failure_aborts_witness :
    (orchCapturingHello.targetCharacter = some ("Luna")
      ∧ sampleTurnEnvFail.send.failed = true)
    ∧ (processUserInput sampleTurnEnvFail orchCapturingHello
        ("hello")).1.state = OState.LISTENING_FOR_WAKE_WORD := by
  have ht : orchCapturingHello.targetCharacter = some ("Luna") := rfl
  have hs : sampleTurnEnvFail.send.failed = true := rfl
  exact ⟨⟨ht, hs⟩, (c6_failure_aborts _ _ _ _ ht (Or.inr hs)).1⟩

end VoiceGateway
